import Mathlib

/-!
# ClearFrost document builder: verification of the spec's claims

The repository holds three straight-line scripts (`generate_manual.py`,
`generate_admin_manual.py`, `generate_full_manual.py`) that assemble a Word
document through the `python-docx` library and save it.  The spec describes
the underlying document-builder contract (`new_document`, `add_heading`,
`add_paragraph`, `add_table`, `set_cell`, `add_page_break`, `save`); that
builder itself is not part of the repository sources, so it is modelled
here from the spec, and the three scripts are transcribed from the sources
as command sequences over the modelled builder.
-/

namespace ClearFrost

/-- Error taxonomy from the spec: OutOfRange (bad row/col/merge target),
SerializationError (structurally invalid block), IOError (unwritable path). -/
inductive DocErr where
  | outOfRange
  | serializationError
  | ioError
deriving DecidableEq, Repr

/-- Paragraph/heading alignment. -/
inductive Alignment where
  | left
  | center
  | right
deriving DecidableEq, Repr

/-- List styles for paragraphs: `'List Number'` and `'List Bullet'` in the
sources. -/
inductive ListStyle where
  | number
  | bullet
deriving DecidableEq, Repr

/-- A run: a contiguous styled span of text within a paragraph, with bold,
optional point size and optional RGB color. -/
structure Run where
  text : String
  bold : Bool
  size : Option Nat
  color : Option (Nat × Nat × Nat)
deriving DecidableEq, Repr

/-- A plain run: default styling, as produced by `doc.add_paragraph(text)`. -/
def r0 (t : String) : Run := ⟨t, false, none, none⟩

/-- A bold run, as produced by `p.add_run(text).bold = True`. -/
def rb (t : String) : Run := ⟨t, true, none, none⟩

/-- Merge status of a table cell: a free cell, the anchor of a merged range
(recording how many cells the range consumed), or a cell consumed by a merge
and stripped of its independent identity. -/
inductive CellStatus where
  | free
  | anchor (extent : Nat)
  | consumed
deriving DecidableEq, Repr

/-- A table cell: text plus optional background fill color attached to the
cell's style node (`set_cell_shading` in the sources), plus merge status. -/
structure Cell where
  text : String
  shading : Option String
  status : CellStatus
deriving DecidableEq, Repr

/-- The empty cell a fresh table is populated with. -/
def Cell.empty : Cell := ⟨"", none, .free⟩

/-- `set_cell_shading(cell, color)` from the sources: attach a fill
directive to the cell's style node; the text is untouched. -/
def set_cell_shading (c : Cell) (color : String) : Cell :=
  { c with shading := some color }

/-- A table block: declared row and column counts and the row-major cell
list (well-formed when `cells.length = rows * cols`). -/
structure Table where
  rows : Nat
  cols : Nat
  cells : List Cell
deriving DecidableEq, Repr

/-- The fresh `rows × cols` table `add_table` appends: all cells empty. -/
def mkTable (rows cols : Nat) : Table :=
  ⟨rows, cols, List.replicate (rows * cols) Cell.empty⟩

/-- Row-major flat index of the cell at `(r, c)`. -/
def Table.idx (t : Table) (r c : Nat) : Nat := r * t.cols + c

/-- The cell stored at `(r, c)`, when the flat index is inside the list. -/
def Table.cellAt (t : Table) (r c : Nat) : Option Cell :=
  t.cells.get? (t.idx r c)

/-- Document blocks: tagged variants per the spec's data model. -/
inductive Block where
  | heading (level : Nat) (text : String) (align : Alignment)
  | paragraph (runs : List Run) (listStyle : Option ListStyle) (align : Alignment)
  | table (t : Table)
  | pageBreak
deriving DecidableEq, Repr

/-- Default document styling, recorded once at creation: font family, point
size, and the east-Asian font fallback. -/
structure StyleConfig where
  fontFamily : String
  fontSize : Nat
  eastAsianFallback : String
deriving DecidableEq, Repr

/-- A document: default styling plus the ordered block sequence. -/
structure Document where
  defaultStyle : StyleConfig
  blocks : List Block
deriving DecidableEq, Repr

/-- Modelled from the spec: `new_document(default_font_family,
default_font_size, eastAsian_font_fallback)` initializes an empty block
sequence and records default styling. -/
def new_document (fam : String) (sz : Nat) (ea : String) : Document :=
  ⟨⟨fam, sz, ea⟩, []⟩

/-- Is `(ri, ci)` inside the merged range from anchor `(row, col)` to
`(r2, c2)`?  The range runs along the shared row when `r2 = row`, otherwise
along the shared column. -/
def inMergeRange (row col r2 c2 ri ci : Nat) : Bool :=
  if r2 = row then
    ri == row && min col c2 ≤ ci && ci ≤ max col c2
  else
    ci == col && min row r2 ≤ ri && ri ≤ max row r2

/-- Number of cells the merged range from `(row, col)` to `(r2, c2)`
consumes. -/
def mergeExtent (row col r2 c2 : Nat) : Nat :=
  if r2 = row then max col c2 - min col c2 + 1 else max row r2 - min row r2 + 1

/-- Rebuild the cell list after merging the range from anchor `(row, col)`
to `(r2, c2)`: the anchor keeps the whole range's content, every other cell
of the range is consumed (empty, no shading, no identity), cells outside
the range are unchanged.  The range is consumed, not duplicated: the list
keeps one slot per cell and the content appears only at the anchor. -/
def applyMerge (t : Table) (row col r2 c2 : Nat) (a : Cell) : Table :=
  { t with cells := (List.range (t.rows * t.cols)).map fun i =>
      let ri := i / t.cols
      let ci := i % t.cols
      if ri = row ∧ ci = col then
        { a with status := .anchor (mergeExtent row col r2 c2) }
      else if inMergeRange row col r2 c2 ri ci then
        ⟨"", none, .consumed⟩
      else
        t.cells.getD i Cell.empty }

/-- Modelled from the spec: `set_cell(table, row, col, text, shading_color,
merge_to)`.  Row/col must be within the declared bounds and must address a
cell that still has its own identity; `merge_to` must be in bounds and on
the same row or column; any violation fails with OutOfRange.  A `none`
shading color leaves the existing fill in place. -/
def set_cell (t : Table) (row col : Nat) (txt : String)
    (shade : Option String) (mergeTo : Option (Nat × Nat)) :
    Except DocErr Table :=
  if row < t.rows ∧ col < t.cols then
    match t.cellAt row col with
    | none => .error .outOfRange
    | some cur =>
      if cur.status = .consumed then .error .outOfRange
      else
        let a : Cell := { match shade with
                          | some s => set_cell_shading { cur with text := txt } s
                          | none => { cur with text := txt } with status := .free }
        match mergeTo with
        | none => .ok { t with cells := t.cells.set (t.idx row col) a }
        | some (r2, c2) =>
          if r2 < t.rows ∧ c2 < t.cols ∧ (r2 = row ∨ c2 = col) ∧ ¬(r2 = row ∧ c2 = col) then
            .ok (applyMerge t row col r2 c2 a)
          else .error .outOfRange
  else .error .outOfRange

/-- The builder calls a script can make while building a document, per the
spec's contract.  `setCellLast` is `set_cell` on the handle returned by the
most recent `add_table`, which is how every `table.cell(...)` call in the
three sources uses its handle. -/
inductive Cmd where
  | addHeading (text : String) (level : Nat) (align : Alignment)
  | addParagraph (runs : List Run) (listStyle : Option ListStyle) (align : Alignment)
  | addTable (rows cols : Nat)
  | setCellLast (row col : Nat) (txt : String) (shade : Option String)
      (mergeTo : Option (Nat × Nat))
  | addPageBreak

/-- Update the first table of a reversed block list (the document's most
recently appended table); fails when no table block exists. -/
def updLastTableRev (f : Table → Except DocErr Table) :
    List Block → Except DocErr (List Block)
  | [] => .error .outOfRange
  | .table t :: rest => (f t).map fun t2 => .table t2 :: rest
  | b :: rest => (updLastTableRev f rest).map fun bs => b :: bs

/-- One builder call on the document state. -/
def step (d : Document) : Cmd → Except DocErr Document
  | .addHeading t l a => .ok { d with blocks := d.blocks ++ [.heading l t a] }
  | .addParagraph rs ls a => .ok { d with blocks := d.blocks ++ [.paragraph rs ls a] }
  | .addTable r c => .ok { d with blocks := d.blocks ++ [.table (mkTable r c)] }
  | .setCellLast row col txt sh mt =>
    (updLastTableRev (fun t => set_cell t row col txt sh mt) d.blocks.reverse).map
      fun bs => { d with blocks := bs.reverse }
  | .addPageBreak => .ok { d with blocks := d.blocks ++ [.pageBreak] }

/-- Run a builder script from a starting document; the first failing call
aborts the run. -/
def run (d : Document) : List Cmd → Except DocErr Document
  | [] => .ok d
  | c :: cs => (step d c).bind fun d2 => run d2 cs

/-! ## Serialization

`save` writes the document in a flat tag-then-payload token stream: one
header token per block, followed by the block's text, run or cell payload
tokens.  `parseBlocks` is the inverse reader used to state the round-trip
property. -/

/-- Tokens of the serialized form. -/
inductive Tok where
  | headingTok (level : Nat) (align : Alignment)
  | textTok (s : String)
  | paraTok (listStyle : Option ListStyle) (align : Alignment) (nruns : Nat)
  | runTok (r : Run)
  | tableTok (rows cols : Nat)
  | cellTok (c : Cell)
  | pageBreakTok
deriving DecidableEq, Repr

/-- A serialized document: the recorded default style and the token
stream. -/
structure SerialDoc where
  style : StyleConfig
  toks : List Tok
deriving DecidableEq, Repr

/-- Serialize one block to its token run.  An empty-run paragraph
serializes as a bare paragraph header: a blank line spacer. -/
def serializeBlock : Block → List Tok
  | .heading l t a => [.headingTok l a, .textTok t]
  | .paragraph rs ls a => .paraTok ls a rs.length :: rs.map Tok.runTok
  | .table t => .tableTok t.rows t.cols :: t.cells.map Tok.cellTok
  | .pageBreak => [.pageBreakTok]

/-- Serialize a block sequence in order. -/
def serializeBlocks (bs : List Block) : List Tok :=
  (bs.map serializeBlock).flatten

/-- Serialize a document: the deterministic writer `save` uses. -/
def serializeDoc (d : Document) : SerialDoc :=
  ⟨d.defaultStyle, serializeBlocks d.blocks⟩

/-- Read back `n` run payload tokens. -/
def parseRuns : Nat → List Tok → Option (List Run × List Tok)
  | 0, ts => some ([], ts)
  | n + 1, .runTok r :: ts =>
    (parseRuns n ts).map fun p => (r :: p.1, p.2)
  | _ + 1, _ => none

/-- Read back `n` cell payload tokens. -/
def parseCells : Nat → List Tok → Option (List Cell × List Tok)
  | 0, ts => some ([], ts)
  | n + 1, .cellTok c :: ts =>
    (parseCells n ts).map fun p => (c :: p.1, p.2)
  | _ + 1, _ => none

/-- Read back a block sequence, spending one unit of fuel per block. -/
def parseBlocks : Nat → List Tok → Option (List Block)
  | _, [] => some []
  | 0, _ :: _ => none
  | fuel + 1, .headingTok l a :: .textTok t :: ts =>
    (parseBlocks fuel ts).map fun bs => .heading l t a :: bs
  | fuel + 1, .paraTok ls a n :: ts => do
    let p ← parseRuns n ts
    let bs ← parseBlocks fuel p.2
    pure (.paragraph p.1 ls a :: bs)
  | fuel + 1, .tableTok r c :: ts => do
    let p ← parseCells (r * c) ts
    let bs ← parseBlocks fuel p.2
    pure (.table ⟨r, c, p.1⟩ :: bs)
  | fuel + 1, .pageBreakTok :: ts =>
    (parseBlocks fuel ts).map fun bs => .pageBreak :: bs
  | _ + 1, _ => none

/-- Parse a serialized document back into a document tree. -/
def parseDoc (sd : SerialDoc) : Option Document :=
  (parseBlocks sd.toks.length sd.toks).map fun bs => ⟨sd.style, bs⟩

/-! ## Filesystem model and `save` -/

/-- A target path: parent directory plus file name. -/
structure Path where
  parent : String
  fname : String
deriving DecidableEq, Repr

/-- The filesystem as `save` sees it: the set of existing directories and
the files on disk with their contents. -/
structure FileSystem where
  dirs : List String
  files : List (Path × SerialDoc)
deriving DecidableEq, Repr

/-- The file content at a path, when one exists. -/
def readFile (fs : FileSystem) (p : Path) : Option SerialDoc :=
  (fs.files.find? fun e => e.1 == p).map fun e => e.2

/-- A block is structurally serializable when any table it holds has a
nonzero shape and exactly the declared number of cells. -/
def blockValid : Block → Bool
  | .table t => t.rows != 0 && t.cols != 0 && t.cells.length == t.rows * t.cols
  | _ => true

/-- Modelled from the spec: `save(doc, path)` serializes the block sequence
to `path`; it fails with IOError when the parent directory does not exist,
with SerializationError when a block violates a structural constraint, and
on failure leaves the filesystem untouched.  Returns the post-call
filesystem and the call's result. -/
def save (fs : FileSystem) (d : Document) (p : Path) :
    FileSystem × Except DocErr SerialDoc :=
  if p.parent ∈ fs.dirs then
    if d.blocks.all blockValid then
      let out := serializeDoc d
      ({ fs with files := (p, out) :: fs.files.filter fun e => e.1 != p }, .ok out)
    else (fs, .error .serializationError)
  else (fs, .error .ioError)

/-! ## Block order bookkeeping -/

/-- The four block kinds, used to compare block order across the builder
calls, the document tree and the serialized stream. -/
inductive BlockTag where
  | headingTag
  | paragraphTag
  | tableTag
  | pageBreakTag
deriving DecidableEq, Repr

/-- The kind of a block. -/
def blockTag : Block → BlockTag
  | .heading .. => .headingTag
  | .paragraph .. => .paragraphTag
  | .table _ => .tableTag
  | .pageBreak => .pageBreakTag

/-- The kind of block a call appends; cell mutation appends none. -/
def cmdTag : Cmd → Option BlockTag
  | .addHeading .. => some .headingTag
  | .addParagraph .. => some .paragraphTag
  | .addTable .. => some .tableTag
  | .setCellLast .. => none
  | .addPageBreak => some .pageBreakTag

/-- The kind of block a token opens; payload tokens open none. -/
def tokTag : Tok → Option BlockTag
  | .headingTok .. => some .headingTag
  | .paraTok .. => some .paragraphTag
  | .tableTok .. => some .tableTag
  | .pageBreakTok => some .pageBreakTag
  | _ => none

/-- The invariant the spec states for tables: the declared row/column count
matches the number of cells held. -/
def WFBlock : Block → Prop
  | .table t => t.cells.length = t.rows * t.cols
  | _ => True

instance : DecidablePred WFBlock := fun b => by
  cases b <;> simp [WFBlock] <;> infer_instance

/-! ## The three generator scripts

Transcribed call-for-call from `generate_manual.py`,
`generate_admin_manual.py` and `generate_full_manual.py`.  A
`doc.add_paragraph(text)` with no styling is a single default run; a
`p.add_run(..).bold = True` sequence is a multi-run paragraph;
`style='List Number'` / `'List Bullet'` are the list styles;
`style='Heading 3'` paragraphs are level-3 headings; a `table.cell(r,c)`
mutation combines the text assignment and any `set_cell_shading` or
`merge` on the same cell into one `set_cell` call on the latest table. -/

/-- A plain paragraph append. -/
def pPlain (t : String) : Cmd := .addParagraph [r0 t] none .left

/-- A `'List Number'` paragraph append. -/
def pNum (t : String) : Cmd := .addParagraph [r0 t] (some .number) .left

/-- A `'List Bullet'` paragraph append. -/
def pBullet (t : String) : Cmd := .addParagraph [r0 t] (some .bullet) .left

/-- An empty `doc.add_paragraph()` spacer. -/
def pEmpty : Cmd := .addParagraph [] none .left

/-- The builder calls of `create_manual` (`generate_manual.py`), in source
order, up to the final `save`. -/
def create_manual_cmds : List Cmd := [
  .addHeading "视觉检测系统操作手册" 0 .center,
  .addParagraph [⟨"GreeVision Rebirth V1.0 | 现场操作指南", false, some 14,
    some (0x64, 0x74, 0x8b)⟩] none .center,
  pEmpty,
  .addHeading "一、界面总览" 1 .left,
  pPlain "软件界面分为四个主要区域：",
  .addTable 3 3,
  .setCellLast 0 0 "顶部栏：软件名称 + 功能按钮（日志/图库/设置/窗口控制）" (some "E2E8F0") (some (0, 2)),
  .setCellLast 1 0 "相机画面区域\n（主显示区）" none none,
  .setCellLast 1 1 "状态指示灯\n今日统计\n控制面板" none none,
  .setCellLast 1 2 "检测记录\n（实时日志）" none none,
  .setCellLast 2 0 "" none none,
  .setCellLast 2 1 "" none none,
  .setCellLast 2 2 "系统日志\n（状态信息）" none none,
  pEmpty,
  .addHeading "二、开机启动" 1 .left,
  .addHeading "第一步：启动软件" 2 .left,
  pPlain "双击桌面上的 \"视觉检测系统\" 图标，等待软件加载完成。",
  .addHeading "第二步：检查连接状态" 2 .left,
  pPlain "观察界面中间上方的状态指示灯：",
  .addTable 3 3,
  .setCellLast 0 0 "指示灯" (some "E2E8F0") none,
  .setCellLast 0 1 "绿色亮起" (some "E2E8F0") none,
  .setCellLast 0 2 "灰色熄灭" (some "E2E8F0") none,
  .setCellLast 1 0 "相机通讯" none none,
  .setCellLast 1 1 "✅ 相机已连接" none none,
  .setCellLast 1 2 "❌ 相机未连接" none none,
  .setCellLast 2 0 "PLC通讯" none none,
  .setCellLast 2 1 "✅ PLC已连接" none none,
  .setCellLast 2 2 "❌ PLC未连接" none none,
  pEmpty,
  pPlain "如果指示灯为灰色：",
  pNum "1. 点击 [查找相机] 按钮",
  pNum "2. 点击 [打开相机] 按钮",
  pNum "3. 点击 [连接PLC] 按钮",
  pNum "4. 如仍无法连接，请联系技术人员",
  .addHeading "第三步：确认画面显示" 2 .left,
  pPlain "左侧大屏幕应显示相机正在拍摄的画面。如果显示\"等待信号\"，说明相机未正常工作。",
  .addHeading "三、日常操作" 1 .left,
  .addHeading "3.1 自动检测（正常生产模式）" 2 .left,
  pPlain "当PLC发送触发信号时，系统会自动完成以下流程：",
  pNum "1. 自动拍照",
  pNum "2. AI分析图片",
  pNum "3. 显示检测结果（合格 或 不合格）",
  pNum "4. 将结果反馈给PLC",
  pNum "5. 统计数据自动更新",
  .addParagraph [rb "💡 提示：", r0 "操作员无需干预，系统全自动运行。"] none .left,
  .addHeading "3.2 手动检测（调试/抽检模式）" 2 .left,
  pPlain "如需手动触发一次检测（例如换班抽检），请点击 [手动检测] 按钮。",
  .addHeading "3.3 手动放行" 2 .left,
  pPlain "若产品被误判为不合格，确认无问题后，可点击 [手动放行] 按钮强制放行。",
  .addParagraph [rb "⚠️ 谨慎使用：", r0 "放行记录会被系统记录。"] none .left,
  .addHeading "3.4 查看今日统计" 2 .left,
  pPlain "界面右侧中间区域显示当天的检测统计：",
  pPlain "• 总计：今日检测总数量",
  pPlain "• 合格：通过检测的数量（绿色）",
  pPlain "• 不合格：未通过检测的数量（红色）",
  .addHeading "四、查看历史记录" 1 .left,
  .addHeading "4.1 查看检测日志" 2 .left,
  pNum "1. 点击顶部栏的 📄文档图标（检测日志按钮）",
  pNum "2. 弹出窗口显示历史检测记录",
  pNum "3. 每条记录包含：检测时间、结果、详情",
  pNum "4. 点击 [刷新] 按钮可更新最新数据",
  .addHeading "4.2 查看不合格图片" 2 .left,
  pNum "1. 点击顶部栏的 🖼️图片图标（图片库按钮）",
  pNum "2. 左侧选择日期",
  pNum "3. 上方选择小时",
  pNum "4. 点击缩略图可放大查看",
  .addHeading "五、常见问题处理" 1 .left,
  .addHeading "问题1：相机画面黑屏/无图像" 2 .left,
  .addTable 4 2,
  .setCellLast 0 0 "检查项" (some "E2E8F0") none,
  .setCellLast 0 1 "处理方法" (some "E2E8F0") none,
  .setCellLast 1 0 "相机通讯指示灯" none none,
  .setCellLast 1 1 "若为灰色，点击 [查找相机] → [打开相机]" none none,
  .setCellLast 2 0 "相机电源" none none,
  .setCellLast 2 1 "检查相机电源线是否松动" none none,
  .setCellLast 3 0 "网线连接" none none,
  .setCellLast 3 1 "检查相机网线是否插紧" none none,
  pEmpty,
  .addHeading "问题2：PLC不触发检测" 2 .left,
  .addTable 4 2,
  .setCellLast 0 0 "检查项" (some "E2E8F0") none,
  .setCellLast 0 1 "处理方法" (some "E2E8F0") none,
  .setCellLast 1 0 "PLC通讯指示灯" none none,
  .setCellLast 1 1 "若为灰色，点击 [连接PLC]" none none,
  .setCellLast 2 0 "PLC运行状态" none none,
  .setCellLast 2 1 "检查PLC是否正常运行" none none,
  .setCellLast 3 0 "信号地址" none none,
  .setCellLast 3 1 "联系技术人员确认PLC配置" none none,
  pEmpty,
  .addHeading "问题3：检测结果一直不合格" 2 .left,
  pPlain "可能原因：",
  pNum "1. 产品确实有缺陷 — 正常情况",
  pNum "2. 光源异常 — 检查光源是否正常亮起",
  pNum "3. 相机脏污 — 轻轻擦拭相机镜头",
  pNum "4. 阈值设置不当 — 联系技术人员调整置信度",
  .addHeading "问题4：软件卡顿/无响应" 2 .left,
  pNum "1. 等待30秒，看是否自动恢复",
  pNum "2. 如无响应，点击右上角 [退出程序] 按钮关闭软件",
  pNum "3. 重新启动软件",
  pNum "4. 如反复出现，联系技术人员",
  .addHeading "六、窗口控制按钮" 1 .left,
  pPlain "顶部栏右侧有三个窗口控制按钮：",
  .addTable 4 2,
  .setCellLast 0 0 "按钮" (some "E2E8F0") none,
  .setCellLast 0 1 "功能" (some "E2E8F0") none,
  .setCellLast 1 0 "➖" none none,
  .setCellLast 1 1 "最小化窗口" none none,
  .setCellLast 2 0 "🔲" none none,
  .setCellLast 2 1 "最大化/还原窗口" none none,
  .setCellLast 3 0 "🚪" none none,
  .setCellLast 3 1 "退出程序（会弹出确认框）" none none,
  .addHeading "七、注意事项" 1 .left,
  pPlain "❌ 请勿随意修改设置：设置界面需要管理员密码，普通操作无需进入",
  pPlain "❌ 请勿遮挡相机：确保相机能正常拍到产品",
  pPlain "❌ 请勿关闭软件：生产期间请保持软件运行",
  pPlain "✅ 定期清洁镜头：每班次开始前，用干净软布轻擦相机镜头",
  pPlain "✅ 异常及时上报：发现任何异常情况，请及时通知技术人员",
  .addHeading "八、紧急联系" 1 .left,
  pPlain "如遇无法解决的问题，请联系：",
  pPlain "• 现场技术员：[填写姓名/电话]",
  pPlain "• 系统维护：[填写姓名/电话]",
  pEmpty,
  .addParagraph [⟨"文档版本：V1.0 | 更新日期：2025-12-23", false, some 9,
    some (0x94, 0xa3, 0xb8)⟩] none .center]

/-- The document `create_manual` has built when it reaches `doc.save`. -/
def create_manual : Except DocErr Document :=
  run (new_document "Microsoft YaHei UI" 11 "Microsoft YaHei UI") create_manual_cmds

/-- The builder calls of `create_admin_manual`
(`generate_admin_manual.py`), in source order, up to the final `save`. -/
def create_admin_manual_cmds : List Cmd := [
  .addHeading "视觉检测系统管理员手册" 0 .center,
  .addParagraph [⟨"GreeVision Rebirth V1.0 | 后台配置指南", false, some 14,
    some (0x64, 0x74, 0x8b)⟩] none .center,
  pEmpty,
  .addHeading "一、进入后台设置" 1 .left,
  .addHeading "1.1 入口位置" 2 .left,
  pPlain "点击软件界面右上角的 ⚙️ 齿轮图标，即可进入后台设置。",
  .addHeading "1.2 密码验证" 2 .left,
  pPlain "为防止现场操作员误操作，后台设置需要输入管理员密码。",
  pEmpty,
  .addParagraph [rb "默认密码：", r0 "888888"] none .left,
  pEmpty,
  .addParagraph [rb "⚠️ 安全提醒：", r0 "如需修改密码，请联系软件开发人员在代码中进行更改。建议在正式投产前更换为自定义密码。"] none .left,
  .addHeading "二、后台参数说明" 1 .left,
  pPlain "后台设置界面分为以下几个配置区域：",
  .addHeading "2.1 存储路径" 2 .left,
  .addParagraph [rb "参数名称：", r0 "存储路径"] none .left,
  pEmpty,
  .addParagraph [rb "作用：", r0 "指定检测图片和日志文件的保存位置。"] none .left,
  pEmpty,
  .addParagraph [rb "修改后影响："] none .left,
  pPlain "• 所有新产生的NG图片将保存到新路径下",
  pPlain "• 日志文件也会写入新路径",
  pPlain "• 旧路径下的历史数据不会自动迁移，如需保留请手动复制",
  pEmpty,
  .addParagraph [rb "建议：", r0 "选择磁盘空间充足的分区（如D盘），避免C盘空间不足影响系统运行。"] none .left,
  .addHeading "2.2 PLC配置" 2 .left,
  pPlain "此区域用于配置与PLC的通讯参数。",
  pEmpty,
  .addParagraph [rb "IP地址：", r0 "PLC的网络地址，例如 192.168.1.100"] none .left,
  pEmpty,
  .addParagraph [rb "端口：", r0 "PLC的通讯端口号，常见为 502（Modbus TCP）"] none .left,
  pEmpty,
  .addParagraph [rb "触发地址：", r0 "PLC发送\"开始检测\"信号的寄存器地址"] none .left,
  pEmpty,
  .addParagraph [rb "结果地址：", r0 "软件向PLC反馈检测结果的寄存器地址"] none .left,
  pEmpty,
  .addParagraph [rb "修改后影响："] none .left,
  pPlain "• 修改IP/端口后，需点击 [连接PLC] 按钮重新建立连接",
  pPlain "• 地址配置错误会导致PLC无法触发检测或无法接收结果",
  pPlain "• 修改前务必与电气工程师确认正确的点位信息",
  .addHeading "2.3 相机配置" 2 .left,
  pPlain "此区域用于配置工业相机参数。",
  pEmpty,
  .addParagraph [rb "显示名称：", r0 "相机在界面上显示的名称，仅用于标识，不影响实际功能"] none .left,
  pEmpty,
  .addParagraph [rb "序列号：", r0 "相机的唯一序列号（SN），用于指定连接哪台相机。可在相机机身标签或海康MVS软件中查看"] none .left,
  pEmpty,
  .addParagraph [rb "曝光 (ms)：", r0 "相机曝光时间，单位为毫秒。数值越大画面越亮，但可能产生运动模糊"] none .left,
  pEmpty,
  .addParagraph [rb "增益：", r0 "信号放大倍数。增益越高画面越亮，但噪点也会增加"] none .left,
  pEmpty,
  .addParagraph [rb "修改后影响："] none .left,
  pPlain "• 曝光/增益的调整会立即影响画面亮度",
  pPlain "• 画面过亮或过暗都会影响AI识别准确率",
  pPlain "• 建议在现场光照稳定后，通过实际测试确定最佳参数",
  .addHeading "2.4 高级设置（检测逻辑）" 2 .left,
  pPlain "此区域用于配置AI检测的判定逻辑。",
  pEmpty,
  .addParagraph [rb "目标标签：", r0 "需要检测的目标名称，例如 \"screw\"（螺钉）、\"remote\"（遥控器）等。必须与AI模型训练时的类别名称一致"] none .left,
  pEmpty,
  .addParagraph [rb "目标数量：", r0 "判定为\"合格\"所需的目标数量。例如设置为4，则检测到4个或以上目标时判定为合格"] none .left,
  pEmpty,
  .addParagraph [rb "启用GPU加速：", r0 "是否使用显卡进行AI推理。启用后速度更快，但需要电脑配备NVIDIA显卡并安装CUDA驱动"] none .left,
  pEmpty,
  .addParagraph [rb "修改后影响："] none .left,
  pPlain "• 目标标签配置错误会导致检测失败或始终判定不合格",
  pPlain "• 目标数量设置不当会影响良率统计（设太低则漏检，设太高则误判）",
  pPlain "• GPU加速开关修改后需重启软件生效",
  .addHeading "三、界面上的阈值滑块" 1 .left,
  pPlain "除了后台设置外，主界面上还有两个可实时调整的滑块：",
  pEmpty,
  .addParagraph [rb "置信度 (Confidence)：", r0 "AI识别结果的可信程度阈值，范围0.10~0.95。数值越高要求越严格，可能漏检；数值越低要求越宽松，可能误检"] none .left,
  pEmpty,
  .addParagraph [rb "IOU阈值：", r0 "用于过滤重叠检测框的阈值。一般保持默认0.30即可，非专业人员不建议修改"] none .left,
  pEmpty,
  .addParagraph [rb "调整建议："] none .left,
  pPlain "• 如果频繁出现漏检（明明有螺钉却判不合格），可尝试降低置信度",
  pPlain "• 如果频繁出现误检（没有螺钉却判合格），可尝试提高置信度",
  pPlain "• 每次调整后请观察多个产品的检测情况，不要频繁大幅修改",
  .addHeading "四、配置修改流程（推荐）" 1 .left,
  pPlain "为确保配置修改不影响正常生产，建议按以下步骤操作：",
  pEmpty,
  pNum "1. 在非生产时段（如换班间隙）进行修改",
  pNum "2. 修改前记录当前参数值（拍照或笔记）",
  pNum "3. 一次只修改一个参数，便于定位问题",
  pNum "4. 修改后进行至少5次手动检测验证",
  pNum "5. 确认无误后再恢复自动生产模式",
  pNum "6. 如出现异常，立即恢复原参数值",
  .addHeading "五、常见配置问题" 1 .left,
  .addHeading "Q1：修改参数后检测一直不合格" 2 .left,
  pPlain "首先检查\"目标标签\"是否填写正确（区分大小写）。其次检查\"目标数量\"是否设置过高。最后尝试降低\"置信度\"滑块。",
  .addHeading "Q2：PLC无法连接" 2 .left,
  pPlain "确认IP地址和端口填写正确。检查网线是否连接正常。在电脑上ping一下PLC的IP，看是否能通。如仍无法解决，联系电气工程师。",
  .addHeading "Q3：相机画面过亮/过暗" 2 .left,
  pPlain "调整\"曝光\"和\"增益\"参数。曝光影响整体亮度，增益影响信号放大。建议先调曝光，不够再调增益。避免增益设置过高导致噪点。",
  .addHeading "Q4：如何部署到新工位" 2 .left,
  pPlain "将整个软件文件夹复制到新电脑。根据新工位的硬件，修改相机序列号、PLC地址等参数。如检测目标不同，需更换AI模型文件并修改目标标签。",
  pEmpty,
  pEmpty,
  .addParagraph [⟨"文档版本：V1.0 | 更新日期：2025-12-23 | 仅限内部使用", false, some 9,
    some (0x94, 0xa3, 0xb8)⟩] none .center]

/-- The document `create_admin_manual` has built when it reaches
`doc.save`. -/
def create_admin_manual : Except DocErr Document :=
  run (new_document "Microsoft YaHei UI" 11 "Microsoft YaHei UI") create_admin_manual_cmds

/-- The builder calls of `create_full_manual`
(`generate_full_manual.py`), in source order, up to the final `save`. -/
def create_full_manual_cmds : List Cmd := [
  pEmpty, pEmpty, pEmpty, pEmpty, pEmpty,
  .addHeading "视觉检测系统\n用户使用与维护手册" 0 .center,
  pEmpty,
  .addParagraph [⟨"GreeVision Rebirth V1.0 | 究极详尽版", false, some 16,
    some (0x47, 0x55, 0x69)⟩] none .center,
  pEmpty, pEmpty, pEmpty, pEmpty, pEmpty, pEmpty, pEmpty, pEmpty,
  .addParagraph [⟨"适用对象：现场操作员、设备管理员、电气工程师\n发布日期：2025年12月23日", false,
    some 12, some (0x94, 0xa3, 0xb8)⟩] none .center,
  .addPageBreak,
  .addHeading "目录" 1 .left,
  pPlain "第一部分：现场操作指南 ........................................................... 3",
  pPlain "    1.1 界面总览 ............................................................................ 3",
  pPlain "    1.2 开机与启动 ........................................................................ 4",
  pPlain "    1.3日常操作流程 ...................................................................... 5",
  pPlain "    1.4 异常处理与注意事项 ......................................................... 6",
  pPlain "第二部分：后台配置与管理 ..................................................... 7",
  pPlain "    2.1 进入后台与权限 ................................................................. 7",
  pPlain "    2.2 核心参数详解 ..................................................................... 8",
  pPlain "    2.3 AI判定逻辑调整 ................................................................. 10",
  pPlain "    2.4 系统维护建议 ..................................................................... 11",
  .addPageBreak,
  .addHeading "第一部分：现场操作指南" 1 .center,
  pEmpty,
  .addHeading "1.1 界面总览" 2 .left,
  pPlain "软件主界面设计简洁直观，分为四大功能区：",
  .addTable 2 2,
  .setCellLast 0 0 "1. 监控显示区（左侧）" (some "F1F5F9") none,
  .setCellLast 0 1 "2. 状态与控制区（中上）" (some "F1F5F9") none,
  .setCellLast 1 0 "3. 数据统计区（中下）" (some "F1F5F9") none,
  .setCellLast 1 1 "4. 日志记录区（右侧）" (some "F1F5F9") none,
  pEmpty,
  pPlain "• 监控显示区：实时显示经过AI处理的画面，包含检测框和结果标签。",
  pPlain "• 状态指示灯：绿色代表正常连接，灰色代表断开。",
  pPlain "• 统计数据：实时统计当班次的合格/不合格数量，重启软件后清零。",
  .addHeading "1.2 开机与启动" 2 .left,
  pPlain "标准开机流程：",
  pNum "1. 开启工控机电源，进入Windows桌面。",
  pNum "2. 双击桌面图标 \"视觉检测系统\"。",
  pNum "3. 等待约5-10秒，软件界面完全显示。",
  pNum "4. 检查顶部指示灯：",
  .addTable 3 3,
  .setCellLast 0 0 "指示灯" (some "E2E8F0") none,
  .setCellLast 0 1 "正常状态" none none,
  .setCellLast 0 2 "异常状态" none none,
  .setCellLast 1 0 "相机通讯" none none,
  .setCellLast 1 1 "🟢 绿色" none none,
  .setCellLast 1 2 "⚪ 灰色（需点击\"打开相机\"）" none none,
  .setCellLast 2 0 "PLC通讯" none none,
  .setCellLast 2 1 "🟢 绿色" none none,
  .setCellLast 2 2 "⚪ 灰色（需点击\"连接PLC\"）" none none,
  .addHeading "1.3 日常操作流程" 2 .left,
  .addHeading "A. 自动模式（推荐）" 3 .left,
  pPlain "• 系统默认处于自动模式。",
  pPlain "• 当流水线传感器触发信号时，系统自动拍照并判断。",
  pPlain "• 操作员只需关注屏幕上的大字结果：",
  pPlain "    ✅ PASS (绿色)：合格，流水线继续运行。",
  pPlain "    ❌ FAIL (红色)：不合格，流水线报警/停机。",
  .addHeading "B. 手动干预" 3 .left,
  pPlain "• 手动检测：在无料或调试时，点击 [手动检测] 模拟一次触发。",
  pPlain "• 手动放行：若系统误判（实际产品合格），点击 [手动放行] 发送OK信号给PLC。",
  .addHeading "1.4 异常处理" 2 .left,
  pPlain "Q: 画面全黑？",
  pPlain "A: 检查相机镜头盖是否取下，光源是否开启。点击 [查找相机] 尝试重连。",
  pEmpty,
  pPlain "Q: 一直判定不合格？",
  pPlain "A: 检查镜头是否脏污。如果产品没问题，可能是从后台设置的阈值过高，需通知管理员调整。",
  .addPageBreak,
  .addHeading "第二部分：后台配置与管理" 1 .center,
  pEmpty,
  pPlain "本部分内容仅限管理员或技术人员操作。",
  .addHeading "2.1 进入后台" 2 .left,
  pPlain "入口：点击软件右上角的 ⚙️ 图标。",
  pPlain "密码：默认密码为 888888。",
  .addHeading "2.2 核心参数详解" 2 .left,
  .addHeading "A. 存储配置" 3 .left,
  pPlain "• 存储路径：建议设置在非系统盘（如 D:\\Data），防止占满C盘导致系统崩溃。",
  pPlain "• 注意：修改路径后，之前的历史图片不会自动迁移。",
  .addHeading "B. PLC通讯配置" 3 .left,
  .addTable 5 2,
  .setCellLast 0 0 "参数" (some "E2E8F0") none,
  .setCellLast 0 1 "说明" none none,
  .setCellLast 1 0 "IP地址" none none,
  .setCellLast 1 1 "PLC的固定IP，需与工控机在同一网段。" none none,
  .setCellLast 2 0 "端口" none none,
  .setCellLast 2 1 "通常为 502 (Modbus TCP) 或自定义端口。" none none,
  .setCellLast 3 0 "触发地址" none none,
  .setCellLast 3 1 "PLC写入\"1\"触发拍照的寄存器地址。" none none,
  .setCellLast 4 0 "结果地址" none none,
  .setCellLast 4 1 "软件写入结果（1=OK, 2=NG）的寄存器地址。" none none,
  .addHeading "C. 相机参数配置" 3 .left,
  pPlain "• 序列号 (SN)：必须与实际连接的相机一致，否则无法打开相机。",
  pPlain "• 曝光 (Exposure)：控制画面亮度。曝光过低画面黑，过高画面白且有拖影。",
  pPlain "• 增益 (Gain)：辅助提亮。建议优先调曝光，最后调增益以减少噪点。",
  .addHeading "2.3 AI判定逻辑调整" 2 .left,
  pPlain "这是V1.0版本的核心升级功能，支持逻辑热更。",
  pEmpty,
  pPlain "1. 目标标签 (Target Label)：",
  pPlain "   必须与模型训练时的标签一致（如 \"screw\"）。填错将导致系统\"视而不见\"。",
  pEmpty,
  pPlain "2. 目标数量 (Target Count)：",
  pPlain "   判定合格所需的最少数量。",
  pPlain "   示例：一个电机上需要4颗螺钉，则设为4。少于4颗判NG，多于4颗判OK。",
  pEmpty,
  pPlain "3. 置信度阈值 (界面滑块)：",
  pPlain "   • 建议值：0.50 - 0.70",
  pPlain "   • 现象：如果经常漏检（有螺钉没认出），调低该值。",
  pPlain "   • 现象：如果经常误检（把影子认成螺钉），调高该值。",
  .addHeading "2.4 系统维护建议" 2 .left,
  pBullet "1. 定期清理磁盘：虽然软件会自动分类存储，但建议每季度手动备份并清理一次 D:\\Data 下的旧图片。",
  pBullet "2. 备份配置文件：软件根目录下的 AppConfig.json 存储了所有设置，建议备份该文件。",
  pBullet "3. 严禁随意修改文件名：不要手动修改 exe 文件名或移动 html 文件夹位置，否则会导致程序无法运行。",
  pEmpty,
  pEmpty,
  .addParagraph [⟨"本文档由系统自动生成 | 最终解释权归研发部门所有", false, some 9,
    some (0x94, 0xa3, 0xb8)⟩] none .center]

/-- The document `create_full_manual` has built when it reaches
`doc.save`. -/
def create_full_manual : Except DocErr Document :=
  run (new_document "Microsoft YaHei UI" 11 "Microsoft YaHei UI") create_full_manual_cmds

/-! ## Helper lemmas -/

theorem replicate_get? {α : Type} (n i : Nat) (a : α) (h : i < n) :
    (List.replicate n a).get? i = some a := by
  simp [List.get?_eq_getElem?, List.getElem?_replicate, h]

theorem step_defaultStyle (d : Document) (c : Cmd) (d2 : Document)
    (h : step d c = .ok d2) : d2.defaultStyle = d.defaultStyle := by
  cases c with
  | setCellLast row col txt sh mt =>
    simp only [step] at h
    cases hu : updLastTableRev (fun t => set_cell t row col txt sh mt) d.blocks.reverse with
    | error e => rw [hu] at h; simp [Except.map] at h
    | ok bs =>
      rw [hu] at h
      simp only [Except.map, Except.ok.injEq] at h
      rw [← h]
  | addHeading t l a => simp only [step, Except.ok.injEq] at h; rw [← h]
  | addParagraph rs ls a => simp only [step, Except.ok.injEq] at h; rw [← h]
  | addTable r c2 => simp only [step, Except.ok.injEq] at h; rw [← h]
  | addPageBreak => simp only [step, Except.ok.injEq] at h; rw [← h]

theorem run_defaultStyle (cs : List Cmd) (d d2 : Document)
    (h : run d cs = .ok d2) : d2.defaultStyle = d.defaultStyle := by
  induction cs generalizing d with
  | nil => simp [run] at h; rw [← h]
  | cons c cs ih =>
    simp only [run] at h
    cases hs : step d c with
    | error e => rw [hs] at h; simp [Except.bind] at h
    | ok dmid =>
      rw [hs] at h
      simp only [Except.bind] at h
      rw [ih dmid h, step_defaultStyle d c dmid hs]

theorem updLastTableRev_tags (f : Table → Except DocErr Table) (bs bs2 : List Block)
    (h : updLastTableRev f bs = .ok bs2) : bs2.map blockTag = bs.map blockTag := by
  induction bs generalizing bs2 with
  | nil => simp [updLastTableRev] at h
  | cons b rest ih =>
    cases b with
    | table t =>
      simp only [updLastTableRev] at h
      cases hf : f t with
      | error e => rw [hf] at h; simp [Except.map] at h
      | ok t2 =>
        rw [hf] at h
        simp only [Except.map, Except.ok.injEq] at h
        rw [← h]; simp [blockTag]
    | heading l t a =>
      simp only [updLastTableRev] at h
      cases hu : updLastTableRev f rest with
      | error e => rw [hu] at h; simp [Except.map] at h
      | ok bs3 =>
        rw [hu] at h
        simp only [Except.map, Except.ok.injEq] at h
        rw [← h]; simp [blockTag, ih bs3 hu]
    | paragraph rs ls a =>
      simp only [updLastTableRev] at h
      cases hu : updLastTableRev f rest with
      | error e => rw [hu] at h; simp [Except.map] at h
      | ok bs3 =>
        rw [hu] at h
        simp only [Except.map, Except.ok.injEq] at h
        rw [← h]; simp [blockTag, ih bs3 hu]
    | pageBreak =>
      simp only [updLastTableRev] at h
      cases hu : updLastTableRev f rest with
      | error e => rw [hu] at h; simp [Except.map] at h
      | ok bs3 =>
        rw [hu] at h
        simp only [Except.map, Except.ok.injEq] at h
        rw [← h]; simp [blockTag, ih bs3 hu]

theorem step_tags (d : Document) (c : Cmd) (d2 : Document) (h : step d c = .ok d2) :
    d2.blocks.map blockTag = d.blocks.map blockTag ++ (cmdTag c).toList := by
  cases c with
  | setCellLast row col txt sh mt =>
    simp only [step] at h
    cases hu : updLastTableRev (fun t => set_cell t row col txt sh mt) d.blocks.reverse with
    | error e => rw [hu] at h; simp [Except.map] at h
    | ok bs =>
      rw [hu] at h
      simp only [Except.map, Except.ok.injEq] at h
      rw [← h]
      have hpres := updLastTableRev_tags _ _ _ hu
      simp only [cmdTag, Option.toList, List.append_nil]
      calc (bs.reverse.map blockTag) = (bs.map blockTag).reverse := by rw [List.map_reverse]
        _ = (d.blocks.reverse.map blockTag).reverse := by rw [hpres]
        _ = d.blocks.map blockTag := by rw [List.map_reverse, List.reverse_reverse]
  | addHeading t l a =>
    simp only [step, Except.ok.injEq] at h
    rw [← h]; simp [cmdTag, blockTag]
  | addParagraph rs ls a =>
    simp only [step, Except.ok.injEq] at h
    rw [← h]; simp [cmdTag, blockTag]
  | addTable r c2 =>
    simp only [step, Except.ok.injEq] at h
    rw [← h]; simp [cmdTag, blockTag]
  | addPageBreak =>
    simp only [step, Except.ok.injEq] at h
    rw [← h]; simp [cmdTag, blockTag]

theorem run_tags (cs : List Cmd) (d d2 : Document) (h : run d cs = .ok d2) :
    d2.blocks.map blockTag = d.blocks.map blockTag ++ cs.filterMap cmdTag := by
  induction cs generalizing d with
  | nil => simp [run] at h; rw [← h]; simp
  | cons c cs ih =>
    simp only [run] at h
    cases hs : step d c with
    | error e => rw [hs] at h; simp [Except.bind] at h
    | ok dmid =>
      rw [hs] at h
      simp only [Except.bind] at h
      rw [ih dmid h, step_tags d c dmid hs, List.filterMap_cons]
      cases cmdTag c <;> simp

theorem serializeBlock_tags (b : Block) :
    (serializeBlock b).filterMap tokTag = [blockTag b] := by
  cases b <;>
    simp [serializeBlock, blockTag, tokTag, List.filterMap_cons, List.filterMap_map,
      Function.comp]

theorem serializeBlocks_tags (bs : List Block) :
    (serializeBlocks bs).filterMap tokTag = bs.map blockTag := by
  induction bs with
  | nil => simp [serializeBlocks]
  | cons b bs ih =>
    simp [serializeBlocks] at ih ⊢
    simp [List.filterMap_append, serializeBlock_tags, ih]

theorem parseRuns_append (rs : List Run) (ts : List Tok) :
    parseRuns rs.length (rs.map Tok.runTok ++ ts) = some (rs, ts) := by
  induction rs with
  | nil => rfl
  | cons r rs ih => simp [parseRuns, ih]

theorem parseCells_append (cs : List Cell) (ts : List Tok) :
    parseCells cs.length (cs.map Tok.cellTok ++ ts) = some (cs, ts) := by
  induction cs with
  | nil => rfl
  | cons c cs ih => simp [parseCells, ih]

theorem serializeBlock_ne_nil (b : Block) : serializeBlock b ≠ [] := by
  cases b <;> simp [serializeBlock]

theorem length_le_serializeBlocks (bs : List Block) :
    bs.length ≤ (serializeBlocks bs).length := by
  induction bs with
  | nil => simp [serializeBlocks]
  | cons b bs ih =>
    have hser : serializeBlocks (b :: bs) = serializeBlock b ++ serializeBlocks bs := by
      simp [serializeBlocks]
    rw [hser, List.length_append, List.length_cons]
    have h1 : 1 ≤ (serializeBlock b).length := by
      cases hb : serializeBlock b with
      | nil => exact absurd hb (serializeBlock_ne_nil b)
      | cons x xs => simp
    omega

theorem parseBlocks_serialize (bs : List Block) (fuel : Nat)
    (hwf : ∀ b ∈ bs, WFBlock b) (hf : bs.length ≤ fuel) :
    parseBlocks fuel (serializeBlocks bs) = some bs := by
  induction bs generalizing fuel with
  | nil => cases fuel <;> rfl
  | cons b bs ih =>
    cases fuel with
    | zero => simp at hf
    | succ n =>
      have hwfb : WFBlock b := hwf b (by simp)
      have hwfs : ∀ x ∈ bs, WFBlock x := fun x hx => hwf x (by simp [hx])
      have hn : bs.length ≤ n := by simp at hf; omega
      have hser : serializeBlocks (b :: bs) = serializeBlock b ++ serializeBlocks bs := by
        simp [serializeBlocks]
      rw [hser]
      cases b with
      | heading l t a =>
        simp only [serializeBlock, List.cons_append]
        simp [parseBlocks, ih n hwfs hn]
      | paragraph rs ls a =>
        simp only [serializeBlock, List.cons_append]
        simp [parseBlocks, parseRuns_append, ih n hwfs hn]
      | table t =>
        simp only [serializeBlock, List.cons_append]
        have hlen : t.cells.length = t.rows * t.cols := hwfb
        simp [parseBlocks, ← hlen, parseCells_append, ih n hwfs hn]
      | pageBreak =>
        simp only [serializeBlock, List.cons_append]
        simp [parseBlocks, ih n hwfs hn]

theorem blockValid_WFBlock (b : Block) (h : blockValid b = true) : WFBlock b := by
  cases b with
  | table t =>
    simp only [blockValid, Bool.and_eq_true, beq_iff_eq] at h
    exact h.2
  | heading l t a => trivial
  | paragraph rs ls a => trivial
  | pageBreak => trivial

theorem applyMerge_cellAt (t : Table) (row col r2 c2 : Nat) (a : Cell) (i j : Nat)
    (hi : i < t.rows) (hj : j < t.cols) :
    (applyMerge t row col r2 c2 a).cellAt i j =
      some (if i = row ∧ j = col then
              { a with status := .anchor (mergeExtent row col r2 c2) }
            else if inMergeRange row col r2 c2 i j then ⟨"", none, .consumed⟩
            else t.cells.getD (i * t.cols + j) Cell.empty) := by
  have hcols : 0 < t.cols := by omega
  have hflat : i * t.cols + j < t.rows * t.cols := by
    calc i * t.cols + j < i * t.cols + t.cols := by omega
      _ = (i + 1) * t.cols := by ring
      _ ≤ t.rows * t.cols := Nat.mul_le_mul_right _ hi
  have hdiv : (i * t.cols + j) / t.cols = i := by
    rw [Nat.add_comm, Nat.mul_comm, Nat.add_mul_div_left j i hcols,
      Nat.div_eq_of_lt hj, Nat.zero_add]
  have hmod : (i * t.cols + j) % t.cols = j := by
    rw [Nat.add_comm, Nat.mul_comm, Nat.add_mul_mod_self_left j t.cols i,
      Nat.mod_eq_of_lt hj]
  simp only [applyMerge, Table.cellAt, Table.idx, List.get?_eq_getElem?,
    List.getElem?_map, List.getElem?_range, hflat, if_pos, Option.map_some']
  rw [hdiv, hmod]

/-! ## The claims -/

/-- C1: for every sequence of builder calls run from a fresh document, the
kinds of blocks in the document tree, in order, equal the kinds of the
block-append calls in call order, and serialization emits the block
headers in that same order: block order is insertion order and is
preserved by save's serializer. -/
theorem blocks_in_call_order (fam : String) (sz : Nat) (ea : String)
    (cs : List Cmd) (d : Document)
    (h : run (new_document fam sz ea) cs = .ok d) :
    d.blocks.map blockTag = cs.filterMap cmdTag ∧
    (serializeDoc d).toks.filterMap tokTag = cs.filterMap cmdTag := by
  have h1 := run_tags cs _ d h
  simp only [new_document, List.map_nil, List.nil_append] at h1
  refine ⟨h1, ?_⟩
  show (serializeBlocks d.blocks).filterMap tokTag = _
  rw [serializeBlocks_tags, h1]

theorem blocks_in_call_order_witness :
    ∃ d, run (new_document "Arial" 11 "Arial")
        [.addHeading "Title" 0 .center, .addTable 1 1,
         .setCellLast 0 0 "x" none none, .addPageBreak] = .ok d ∧
      d.blocks.map blockTag =
        [.headingTag, .tableTag, .pageBreakTag] ∧
      (serializeDoc d).toks.filterMap tokTag =
        [.headingTag, .tableTag, .pageBreakTag] := by
  refine ⟨_, rfl, ?_, ?_⟩
  · exact (blocks_in_call_order "Arial" 11 "Arial"
      [.addHeading "Title" 0 .center, .addTable 1 1,
       .setCellLast 0 0 "x" none none, .addPageBreak] _ rfl).1
  · exact (blocks_in_call_order "Arial" 11 "Arial"
      [.addHeading "Title" 0 .center, .addTable 1 1,
       .setCellLast 0 0 "x" none none, .addPageBreak] _ rfl).2

/-- C2: on a freshly created `r × c` table, `set_cell` succeeds for every
`(row, col)` with `row < r` and `col < c`, and fails with OutOfRange for
every pair outside those bounds. -/
theorem set_cell_bounds (r c row col : Nat) (txt : String) :
    (row < r ∧ col < c →
      ∃ t2, set_cell (mkTable r c) row col txt none none = .ok t2) ∧
    (¬(row < r ∧ col < c) →
      set_cell (mkTable r c) row col txt none none = .error .outOfRange) := by
  constructor
  · rintro ⟨hr, hc⟩
    have hidx : row * c + col < r * c := by
      calc row * c + col < row * c + c := by omega
        _ = (row + 1) * c := by ring
        _ ≤ r * c := Nat.mul_le_mul_right c hr
    refine ⟨⟨r, c, (List.replicate (r * c) Cell.empty).set (row * c + col)
      ⟨txt, none, .free⟩⟩, ?_⟩
    simp only [set_cell, mkTable, Table.cellAt, Table.idx]
    rw [if_pos ⟨hr, hc⟩, replicate_get? _ _ _ hidx]
    rfl
  · intro h
    simp only [set_cell, mkTable]
    rw [if_neg h]

theorem set_cell_bounds_witness :
    (∃ t2, set_cell (mkTable 2 2) 0 1 "B" none none = .ok t2) ∧
    set_cell (mkTable 2 2) 5 0 "X" none none = .error .outOfRange :=
  ⟨(set_cell_bounds 2 2 0 1 "B").1 (by decide),
   (set_cell_bounds 2 2 5 0 "X").2 (by decide)⟩

/-- C3: after `set_cell` merges the range from `(row, col)` to `(r2, c2)`,
every other cell `(i, j)` of that range is consumed: it holds no text and
no shading, any later `set_cell` addressing it fails with OutOfRange, and
the table keeps its declared shape (the range is consumed, its content not
duplicated — it lives only at the anchor). -/
theorem merge_removes_identity (t : Table) (row col r2 c2 i j : Nat)
    (txt : String) (sh : Option String) (t2 : Table)
    (hm : set_cell t row col txt sh (some (r2, c2)) = .ok t2)
    (hin : inMergeRange row col r2 c2 i j = true)
    (hij : ¬(i = row ∧ j = col)) :
    t2.cellAt i j = some ⟨"", none, .consumed⟩ ∧
    (∀ txt2 sh2 mt2, set_cell t2 i j txt2 sh2 mt2 = .error .outOfRange) ∧
    t2.rows = t.rows ∧ t2.cols = t.cols := by
  unfold set_cell at hm
  split at hm
  case isFalse => simp at hm
  case isTrue hb =>
    split at hm
    case h_1 => simp at hm
    case h_2 cur hcur =>
      split at hm
      case isTrue => simp at hm
      case isFalse hst =>
        simp only [] at hm
        split at hm
        case isFalse => simp at hm
        case isTrue hb2 =>
          simp only [Except.ok.injEq] at hm
          obtain ⟨hr2, hc2, hline, hne⟩ := hb2
          have hbij : i < t.rows ∧ j < t.cols := by
            unfold inMergeRange at hin
            by_cases hr : r2 = row
            · rw [if_pos hr] at hin
              simp only [Bool.and_eq_true, beq_iff_eq, decide_eq_true_eq] at hin
              obtain ⟨⟨hie, _⟩, hle⟩ := hin
              have h1 : col < t.cols := hb.2
              constructor
              · omega
              · have h2 : j ≤ max col c2 := hle
                omega
            · rw [if_neg hr] at hin
              simp only [Bool.and_eq_true, beq_iff_eq, decide_eq_true_eq] at hin
              obtain ⟨⟨hje, _⟩, hle⟩ := hin
              have h1 : row < t.rows := hb.1
              constructor
              · have h2 : i ≤ max row r2 := hle
                omega
              · omega
          have hcell : t2.cellAt i j = some ⟨"", none, .consumed⟩ := by
            rw [← hm]
            rw [applyMerge_cellAt t row col r2 c2 _ i j hbij.1 hbij.2]
            rw [if_neg hij, if_pos hin]
          have hrows : t2.rows = t.rows := by rw [← hm]; rfl
          have hcols : t2.cols = t.cols := by rw [← hm]; rfl
          refine ⟨hcell, ?_, hrows, hcols⟩
          intro txt2 sh2 mt2
          unfold set_cell
          rw [if_pos (by rw [hrows, hcols]; exact hbij), hcell]
          simp

theorem merge_removes_identity_witness :
    ∃ t2, set_cell (mkTable 3 3) 0 0 "hdr" none (some (0, 2)) = .ok t2 ∧
      (t2.cellAt 0 1 = some ⟨"", none, .consumed⟩ ∧
       (∀ txt2 sh2 mt2, set_cell t2 0 1 txt2 sh2 mt2 = .error .outOfRange) ∧
       t2.rows = (mkTable 3 3).rows ∧ t2.cols = (mkTable 3 3).cols) :=
  ⟨_, rfl, merge_removes_identity (mkTable 3 3) 0 0 0 2 0 1 "hdr" none _
    rfl (by decide) (by decide)⟩

/-- C4: when the target path's parent directory does not exist, `save`
fails with IOError, leaves the filesystem untouched, and leaves no new
file readable at the target path. -/
theorem save_missing_parent (fs : FileSystem) (d : Document) (p : Path)
    (h : p.parent ∉ fs.dirs) :
    (save fs d p).2 = .error .ioError ∧ (save fs d p).1 = fs ∧
    readFile (save fs d p).1 p = readFile fs p := by
  simp [save, h]

theorem save_missing_parent_witness :
    (save ⟨["home"], []⟩ (new_document "Arial" 11 "Arial")
      ⟨"nodir", "out.docx"⟩).2 = .error .ioError ∧
    (save ⟨["home"], []⟩ (new_document "Arial" 11 "Arial")
      ⟨"nodir", "out.docx"⟩).1 = ⟨["home"], []⟩ ∧
    readFile (save ⟨["home"], []⟩ (new_document "Arial" 11 "Arial")
      ⟨"nodir", "out.docx"⟩).1 ⟨"nodir", "out.docx"⟩ =
      readFile ⟨["home"], []⟩ ⟨"nodir", "out.docx"⟩ :=
  save_missing_parent ⟨["home"], []⟩ (new_document "Arial" 11 "Arial")
    ⟨"nodir", "out.docx"⟩ (by decide)

/-- C5: `save` is deterministic and idempotent: when a first save of a
document succeeds with output `out`, saving the same document to the same
path again succeeds with the identical output, and the file at the path
holds exactly that output. -/
theorem save_idempotent (fs : FileSystem) (d : Document) (p : Path) (out : SerialDoc)
    (h : (save fs d p).2 = .ok out) :
    (save (save fs d p).1 d p).2 = .ok out ∧
    readFile (save (save fs d p).1 d p).1 p = some out := by
  by_cases hd : p.parent ∈ fs.dirs
  · by_cases hv : d.blocks.all blockValid
    · simp only [save, hd, if_true, hv, Except.ok.injEq] at h ⊢
      constructor
      · simp [hd, hv, h]
      · simp [hd, hv, readFile, ← h]
    · simp [save, hd, hv] at h
  · simp [save, hd] at h

theorem save_idempotent_witness :
    (save (save ⟨["out"], []⟩
        ⟨⟨"Arial", 11, "Arial"⟩, [.heading 0 "Title" .center]⟩
        ⟨"out", "doc.docx"⟩).1
      ⟨⟨"Arial", 11, "Arial"⟩, [.heading 0 "Title" .center]⟩
      ⟨"out", "doc.docx"⟩).2 =
      .ok (serializeDoc ⟨⟨"Arial", 11, "Arial"⟩, [.heading 0 "Title" .center]⟩) ∧
    readFile (save (save ⟨["out"], []⟩
        ⟨⟨"Arial", 11, "Arial"⟩, [.heading 0 "Title" .center]⟩
        ⟨"out", "doc.docx"⟩).1
      ⟨⟨"Arial", 11, "Arial"⟩, [.heading 0 "Title" .center]⟩
      ⟨"out", "doc.docx"⟩).1 ⟨"out", "doc.docx"⟩ =
      some (serializeDoc ⟨⟨"Arial", 11, "Arial"⟩, [.heading 0 "Title" .center]⟩) :=
  save_idempotent ⟨["out"], []⟩
    ⟨⟨"Arial", 11, "Arial"⟩, [.heading 0 "Title" .center]⟩
    ⟨"out", "doc.docx"⟩
    (serializeDoc ⟨⟨"Arial", 11, "Arial"⟩, [.heading 0 "Title" .center]⟩) rfl

/-- C6: round trip: any output a successful `save` writes parses back to
exactly the in-memory document — same block sequence, same run styling,
same cell shading. -/
theorem save_round_trip (fs : FileSystem) (d : Document) (p : Path) (out : SerialDoc)
    (h : (save fs d p).2 = .ok out) : parseDoc out = some d := by
  by_cases hd : p.parent ∈ fs.dirs
  · by_cases hv : d.blocks.all blockValid
    · simp only [save, hd, if_true, hv, Except.ok.injEq] at h
      have hwf : ∀ b ∈ d.blocks, WFBlock b := fun b hb =>
        blockValid_WFBlock b (by
          have := (List.all_eq_true.mp hv) b hb
          exact this)
      rw [← h]
      have hp := parseBlocks_serialize d.blocks (serializeBlocks d.blocks).length hwf
        (length_le_serializeBlocks d.blocks)
      simp [parseDoc, serializeDoc, hp]
    · simp [save, hd, hv] at h
  · simp [save, hd] at h

theorem save_round_trip_witness :
    parseDoc (serializeDoc ⟨⟨"Arial", 11, "Arial"⟩,
      [.heading 0 "Title" .center,
       .paragraph [r0 "x"] none .left,
       .table ⟨2, 2, [⟨"A", none, .free⟩, ⟨"B", some "E2E8F0", .free⟩,
         Cell.empty, Cell.empty]⟩,
       .pageBreak]⟩) =
    some ⟨⟨"Arial", 11, "Arial"⟩,
      [.heading 0 "Title" .center,
       .paragraph [r0 "x"] none .left,
       .table ⟨2, 2, [⟨"A", none, .free⟩, ⟨"B", some "E2E8F0", .free⟩,
         Cell.empty, Cell.empty]⟩,
       .pageBreak]⟩ :=
  save_round_trip ⟨["out"], []⟩ _ ⟨"out", "doc.docx"⟩ _ rfl

/-- C7: `set_cell_shading` attaches the fill color to the cell's style
data without altering its text; the 2×2 scenario — set `(0,0)` to "A",
set `(0,1)` to "B" with shading E2E8F0 — serializes as a 2×2 table whose
cell `(0,1)` carries fill E2E8F0 and text "B". -/
theorem shading_scenario :
    (∀ cl color, (set_cell_shading cl color).text = cl.text ∧
      (set_cell_shading cl color).shading = some color) ∧
    ∃ d, run (new_document "Microsoft YaHei UI" 11 "Microsoft YaHei UI")
        [.addTable 2 2, .setCellLast 0 0 "A" none none,
         .setCellLast 0 1 "B" (some "E2E8F0") none] = .ok d ∧
      d.blocks = [.table ⟨2, 2, [⟨"A", none, .free⟩, ⟨"B", some "E2E8F0", .free⟩,
        Cell.empty, Cell.empty]⟩] ∧
      (serializeDoc d).toks = [.tableTok 2 2, .cellTok ⟨"A", none, .free⟩,
        .cellTok ⟨"B", some "E2E8F0", .free⟩, .cellTok Cell.empty,
        .cellTok Cell.empty] :=
  ⟨fun _ _ => ⟨rfl, rfl⟩, _, rfl, rfl, rfl⟩

/-- C8: the default styling is recorded at `new_document` time, before any
block exists, and no later builder call — block append or cell mutation —
changes it. -/
theorem default_style_fixed :
    (∀ fam sz ea, (new_document fam sz ea).defaultStyle = ⟨fam, sz, ea⟩ ∧
      (new_document fam sz ea).blocks = []) ∧
    (∀ d cs d2, run d cs = .ok d2 → d2.defaultStyle = d.defaultStyle) :=
  ⟨fun _ _ _ => ⟨rfl, rfl⟩, fun d cs d2 h => run_defaultStyle cs d d2 h⟩

theorem default_style_fixed_witness :
    (new_document "Microsoft YaHei UI" 11 "Microsoft YaHei UI").defaultStyle =
      ⟨"Microsoft YaHei UI", 11, "Microsoft YaHei UI"⟩ ∧
    ∃ d, run (new_document "Microsoft YaHei UI" 11 "Microsoft YaHei UI")
        [.addHeading "T" 0 .center, .addTable 1 1,
         .setCellLast 0 0 "x" (some "E2E8F0") none] = .ok d ∧
      d.defaultStyle = ⟨"Microsoft YaHei UI", 11, "Microsoft YaHei UI"⟩ := by
  refine ⟨(default_style_fixed.1 "Microsoft YaHei UI" 11 "Microsoft YaHei UI").1,
    _, rfl, ?_⟩
  rw [default_style_fixed.2 (new_document "Microsoft YaHei UI" 11 "Microsoft YaHei UI")
    [.addHeading "T" 0 .center, .addTable 1 1,
     .setCellLast 0 0 "x" (some "E2E8F0") none] _ rfl]
  exact (default_style_fixed.1 "Microsoft YaHei UI" 11 "Microsoft YaHei UI").1

/-- C9: appending a paragraph with an empty run sequence always succeeds,
appends exactly one empty paragraph block, and that block serializes as a
bare paragraph header with zero runs — a blank line spacer. -/
theorem empty_paragraph_blank_spacer (d : Document) (a : Alignment) :
    step d (.addParagraph [] none a) =
      .ok { d with blocks := d.blocks ++ [.paragraph [] none a] } ∧
    serializeBlock (.paragraph [] none a) = [.paraTok none a 0] := ⟨rfl, rfl⟩

/-- C10: the three generators take no input and are deterministic: each
builds successfully, and any two runs of the same generator produce the
identical document tree. -/
theorem generators_deterministic :
    (∃ dm, create_manual = .ok dm) ∧
    (∃ da, create_admin_manual = .ok da) ∧
    (∃ df, create_full_manual = .ok df) ∧
    (∀ d1 d2 : Except DocErr Document,
      create_manual = d1 → create_manual = d2 → d1 = d2) ∧
    (∀ d1 d2 : Except DocErr Document,
      create_admin_manual = d1 → create_admin_manual = d2 → d1 = d2) ∧
    (∀ d1 d2 : Except DocErr Document,
      create_full_manual = d1 → create_full_manual = d2 → d1 = d2) := by
  refine ⟨⟨_, rfl⟩, ⟨_, rfl⟩, ⟨_, rfl⟩, ?_, ?_, ?_⟩ <;>
    (intro d1 d2 h1 h2; rw [← h1, ← h2])

theorem generators_deterministic_witness :
    create_manual = create_manual ∧
    create_admin_manual = create_admin_manual ∧
    create_full_manual = create_full_manual :=
  ⟨generators_deterministic.2.2.2.1 create_manual create_manual rfl rfl,
   generators_deterministic.2.2.2.2.1 create_admin_manual create_admin_manual rfl rfl,
   generators_deterministic.2.2.2.2.2 create_full_manual create_full_manual rfl rfl⟩

end ClearFrost
